import Mathlib

/-!
Shallow embedding of `aten/src/ATen/native/sparse/SparseBlas.cpp`: the
dispatch-and-validation layer for sparse CSR `addmv`, `triangular_solve`
and `sampled_addmm`.  Tensor element values are modelled as integers (the
claims under verification are exact algebraic identities, so any commutative
ring works); machine scalars (`Scalar` converted via `toComplexDouble`) are
likewise integers, so the `betaval != 0.0` test is exact equality, as in the
source.
External backend kernels (`sparse::impl::cpu::*`) are not part of the
translated file; they appear as explicit function parameters, and where a
claim needs their behaviour a model derived from the spec is supplied.
-/

namespace SparseBlas

/-- Tensor memory layouts relevant to this file (`at::Layout`). -/
inductive Layout where
  | strided
  | sparseCsr
  | sparseCoo
  deriving DecidableEq

/-- Element dtypes (`at::ScalarType`); element values themselves are modelled as integers. -/
inductive ScalarType where
  | float32
  | float64
  | complex64
  deriving DecidableEq

/-- Model of an ATen tensor.  A dense (strided) tensor stores its elements
row-major in `data`; a sparse CSR tensor stores row pointers `crow`, column
indices `col` and stored values `vals`.  Unused representation fields default
to empty. -/
structure Tensor where
  layout : Layout
  dtype : ScalarType
  sizes : List Nat
  data : List ℤ := []
  crow : List Nat := []
  col : List Nat := []
  vals : List ℤ := []
  deriving DecidableEq

/-- `Tensor::dim()`: the rank. -/
def Tensor.dim (t : Tensor) : Nat := t.sizes.length

/-- `Tensor::size(0)`; reading a size of an absent dimension is unchecked in
the source (`IntArrayRef::operator[]`), modelled by the default value 0. -/
def Tensor.size0 (t : Tensor) : Nat := t.sizes.getD 0 0

/-- `Tensor::size(1)`; unchecked read, modelled by default 0 when absent. -/
def Tensor.size1 (t : Tensor) : Nat := t.sizes.getD 1 0

/-- `Tensor::_nnz()` for CSR: the number of stored values. -/
def Tensor.nnz (t : Tensor) : Nat := t.vals.length

/-- Number of elements determined by a size list. -/
def numel (sizes : List Nat) : Nat := sizes.prod

/-- `at::native::resize_output(result, sizes)`: a no-op when the shape already
matches; otherwise the storage is reallocated and its contents are
unspecified, modelled by an arbitrary fill value `uninit`. -/
def resize_output (t : Tensor) (newSizes : List Nat) (uninit : ℤ) : Tensor :=
  if t.sizes = newSizes then t
  else { t with sizes := newSizes, data := List.replicate (numel newSizes) uninit }

/-- `at::native::copy_(dst, src)` for dense tensors of equal shape: element
values are copied; dst keeps its own dtype (value cast is the identity over ℤ). -/
def copy_dense (dst src : Tensor) : Tensor :=
  { dst with data := src.data }

/-- `Tensor::zero_()`: fills every element with 0. -/
def Tensor.zero_ (t : Tensor) : Tensor :=
  { t with data := List.replicate (numel t.sizes) 0 }

/-- `at::mul_out(result, self, scalar_tensor(beta, self.scalar_type(), ...))`:
the output takes the broadcast shape of `self` with a 0-dim scalar, i.e.
`self`'s shape, and holds `self * beta` elementwise. -/
def mul_scalar_out (result self : Tensor) (beta : ℤ) : Tensor :=
  { result with sizes := self.sizes, data := self.data.map (fun x => x * beta) }

/-- `expand_size(self, {m})`: broadcast `self` to the 1-D shape `[m]`.
A rank-0 tensor and a rank-1 tensor of length 1 are replicated; a rank-1
tensor of length `m` is returned as is; anything else fails (user error). -/
def expand_size (t : Tensor) (m : Nat) : Option Tensor :=
  match t.sizes with
  | [] => some { t with sizes := [m], data := List.replicate m (t.data.getD 0 0) }
  | [l] =>
    if l = m then some t
    else if l = 1 then some { t with sizes := [m], data := List.replicate m (t.data.getD 0 0) }
    else none
  | _ => none

/-- Dot product of row `i` of a CSR matrix with a dense vector, over the
stored entries of that row. -/
def csrRowDot (mat vec : Tensor) (i : Nat) : ℤ :=
  ∑ k ∈ Finset.Ico (mat.crow.getD i 0) (mat.crow.getD (i+1) 0),
    mat.vals.getD k 0 * vec.data.getD (mat.col.getD k 0) 0

/-- Type of the external backend kernel `sparse::impl::cpu::addmv_out_sparse_csr`:
it receives `(mat, vec, beta, alpha, result)` and produces the new result. -/
def KernelFn := Tensor → Tensor → ℤ → ℤ → Tensor → Tensor

/-- Modelled from the spec: the external backend CSR matrix-vector kernel
`sparse::impl::cpu::addmv_out_sparse_csr` (its implementation file is not part
of this translation unit).  Per the spec it is assumed correct for the
contract `result = beta*result + alpha*(mat @ vec)` computed row-wise over the
CSR structure, and for `beta = 0` the destination's prior values are ignored
entirely (so stale or NaN contents cannot contribute). -/
def cpuAddmvKernel : KernelFn := fun mat vec beta alpha out =>
  let f := fun i => (if beta = 0 then 0 else beta * out.data.getD i 0) + alpha * csrRowDot mat vec i
  { out with data := (List.range mat.size0).map f }

/-- Failure modes of `addmv_out_sparse_csr`.  `debugAssertMatCsr` is the
`TORCH_INTERNAL_ASSERT_DEBUG_ONLY` (compiled out in release builds); the rest
are always-active `TORCH_CHECK` user errors, plus the broadcast failure of
`expand_size`. -/
inductive AddmvErr where
  | debugAssertMatCsr
  | matNot2D
  | vecNot1D
  | expandError
  deriving DecidableEq

/-- Outcome of a call to `addmv_out_sparse_csr`: the final state of the output
buffer, the error raised (if any), and whether the backend kernel was invoked. -/
structure AddmvResult where
  out : Tensor
  err : Option AddmvErr
  kernelInvoked : Bool
  deriving DecidableEq

/-- Lines 41-46 of the source: output preparation for `addmv`.  When the
output buffer is distinct from `self` (`aliased = false`), it is resized to
the broadcast shape and `self`'s values are copied in only when `beta ≠ 0`. -/
def addmvPrepareOut (self_ result : Tensor) (beta : ℤ) (aliased : Bool) (uninit : ℤ) : Tensor :=
  if aliased then result
  else
    let r := resize_output result self_.sizes uninit
    if beta ≠ 0 then copy_dense r self_ else r

/-- `at::native::addmv_out_sparse_csr` (lines 26-69).  `debug` selects
debug/release build semantics for the internal assertion; `kernel` is the
external backend; `aliased` records whether `&result == &self`; `uninit`
stands for the unspecified contents of freshly allocated storage. -/
def addmv_out_sparse_csr (debug : Bool) (kernel : KernelFn) (self mat vec : Tensor)
    (beta alpha : ℤ) (result : Tensor) (aliased : Bool) (uninit : ℤ) : AddmvResult :=
  if debug = true ∧ ¬ mat.layout = Layout.sparseCsr then
    ⟨result, some AddmvErr.debugAssertMatCsr, false⟩
  else if ¬ mat.dim = 2 then ⟨result, some AddmvErr.matNot2D, false⟩
  else if ¬ vec.dim = 1 then ⟨result, some AddmvErr.vecNot1D, false⟩
  else
    match expand_size self mat.size0 with
    | none => ⟨result, some AddmvErr.expandError, false⟩
    | some self_ =>
      let result1 := addmvPrepareOut self_ result beta aliased uninit
      if mat.nnz = 0 then
        if beta = 0 then ⟨result1.zero_, none, false⟩
        else ⟨mul_scalar_out result1 self beta, none, false⟩
      else ⟨kernel mat vec beta alpha result1, none, true⟩

/-- Type of the external backend kernel
`sparse::impl::cpu::triangular_solve_out_sparse_csr`: it receives
`(A, B, X, upper, transpose, unitriangular)` and produces the new `X`. -/
def TriKernelFn := Tensor → Tensor → Tensor → Bool → Bool → Bool → Tensor

/-- `at::native::triangular_solve_out_sparse_csr_cpu` (lines 84-94): delegates
to the backend kernel and returns the pair `(X, clone_A)`. -/
def triangular_solve_out_sparse_csr_cpu (kernel : TriKernelFn) (B A : Tensor)
    (upper transpose unitriangular : Bool) (X clone_A : Tensor) : Tensor × Tensor :=
  (kernel A B X upper transpose unitriangular, clone_A)

/-- Failure modes of `sparse_sampled_addmm_out_sparse_csr_cpu`.
`debugAssertSelfCsr` is the `TORCH_INTERNAL_ASSERT_DEBUG_ONLY` on line 112;
all others are always-active `TORCH_CHECK` user errors, in source order. -/
inductive SamErr where
  | debugAssertSelfCsr
  | mat1NotStrided
  | mat2NotStrided
  | resultNotCsr
  | dtypeMat1Mat2
  | dtypeMat1Self
  | dtypeResultSelf
  | mat1NotMatrix
  | mat2NotMatrix
  | resultNotMatrix
  | matmulShapeMismatch
  | selfDim0Mismatch
  | selfDim1Mismatch
  deriving DecidableEq

/-- The `TORCH_CHECK` validation sequence of
`sparse_sampled_addmm_out_sparse_csr_cpu` (lines 114-148), in source order,
returning the first failure. -/
def sampledAddmmChecks (self mat1 mat2 result : Tensor) : Option SamErr :=
  if ¬ mat1.layout = Layout.strided then some SamErr.mat1NotStrided
  else if ¬ mat2.layout = Layout.strided then some SamErr.mat2NotStrided
  else if ¬ result.layout = Layout.sparseCsr then some SamErr.resultNotCsr
  else if ¬ mat1.dtype = mat2.dtype then some SamErr.dtypeMat1Mat2
  else if ¬ mat1.dtype = self.dtype then some SamErr.dtypeMat1Self
  else if ¬ result.dtype = self.dtype then some SamErr.dtypeResultSelf
  else if ¬ mat1.dim = 2 then some SamErr.mat1NotMatrix
  else if ¬ mat2.dim = 2 then some SamErr.mat2NotMatrix
  else if ¬ result.dim = 2 then some SamErr.resultNotMatrix
  else if ¬ mat1.size1 = mat2.size0 then some SamErr.matmulShapeMismatch
  else if ¬ self.size0 = mat1.size0 then some SamErr.selfDim0Mismatch
  else if ¬ self.size1 = mat2.size1 then some SamErr.selfDim1Mismatch
  else none

/-- Element `(i, j)` of the dense form of a CSR tensor: the sum of the stored
values of row `i` whose column index is `j` (in a well-formed CSR tensor at
most one such entry exists). -/
def csrDenseEntry (t : Tensor) (i j : Nat) : ℤ :=
  ∑ k ∈ Finset.Ico (t.crow.getD i 0) (t.crow.getD (i+1) 0),
    if t.col.getD k 0 = j then t.vals.getD k 0 else 0

/-- Row-major flattening of an `m × n` matrix given by an entry function. -/
def denseOfFn (m n : Nat) (f : Nat → Nat → ℤ) : List ℤ :=
  (List.range (m * n)).map (fun t => f (t / n) (t % n))

/-- `Tensor::to_dense()` for a CSR tensor. -/
def to_dense (t : Tensor) : Tensor :=
  { t with layout := Layout.strided,
           data := denseOfFn t.size0 t.size1 (csrDenseEntry t),
           crow := [], col := [], vals := [] }

/-- Element `(i, j)` of the dense matrix product `a @ b`. -/
def mmEntry (a b : Tensor) (i j : Nat) : ℤ :=
  ∑ p ∈ Finset.range a.size1,
    a.data.getD (i * a.size1 + p) 0 * b.data.getD (p * b.size1 + j) 0

/-- `at::addmm(d, mat1, mat2, beta, alpha)` for dense operands:
`beta*d + alpha*(mat1 @ mat2)`, with `d`'s shape. -/
def addmm (d mat1 mat2 : Tensor) (beta alpha : ℤ) : Tensor :=
  let f := fun i j => beta * d.data.getD (i * d.size1 + j) 0 + alpha * mmEntry mat1 mat2 i j
  { d with data := denseOfFn d.size0 d.size1 f }

/-- The row containing stored entry `k` of a CSR tensor: the unique `i` with
`crow[i] ≤ k < crow[i+1]` (for a well-formed tensor). -/
def csrRowOf (t : Tensor) (k : Nat) : Nat :=
  ((List.range t.size0).filter
    (fun i => decide (t.crow.getD i 0 ≤ k ∧ k < t.crow.getD (i+1) 0))).headD 0

/-- `Tensor::sparse_mask` specialised to a dense input and a CSR mask: the
result shares the mask's pattern and gathers the dense values at the mask's
stored coordinates. -/
def sparse_mask (dense mask : Tensor) : Tensor :=
  let f := fun k => dense.data.getD (csrRowOf mask k * dense.size1 + mask.col.getD k 0) 0
  { mask with vals := (List.range mask.nnz).map f }

/-- `at::native::resize_as_sparse_csr_(result, src)`: result takes `src`'s
shape, row pointers and column indices; the values buffer is freshly
allocated with unspecified contents, modelled by `uninit`. -/
def resize_as_sparse_csr_ (result src : Tensor) (uninit : ℤ) : Tensor :=
  { result with sizes := src.sizes, crow := src.crow, col := src.col,
                vals := List.replicate src.nnz uninit }

/-- `Tensor::copy_` between CSR tensors of identical pattern: stored values
are copied; dst keeps its own dtype. -/
def copy_csr (dst src : Tensor) : Tensor :=
  { dst with vals := src.vals }

/-- Outcome of a call to `sparse_sampled_addmm_out_sparse_csr_cpu`. -/
structure SamResult where
  out : Tensor
  err : Option SamErr
  deriving DecidableEq

/-- `at::native::sparse_sampled_addmm_out_sparse_csr_cpu` (lines 105-156). -/
def sparse_sampled_addmm_out_sparse_csr_cpu (debug : Bool) (self mat1 mat2 : Tensor)
    (beta alpha : ℤ) (result : Tensor) (aliased : Bool) (uninit : ℤ) : SamResult :=
  if debug = true ∧ ¬ self.layout = Layout.sparseCsr then
    ⟨result, some SamErr.debugAssertSelfCsr⟩
  else
    match sampledAddmmChecks self mat1 mat2 result with
    | some e => ⟨result, some e⟩
    | none =>
      let result1 := if aliased then result else resize_as_sparse_csr_ result self uninit
      ⟨copy_csr result1 (sparse_mask (addmm (to_dense self) mat1 mat2 beta alpha) self), none⟩

/-- Well-formedness of a CSR tensor: rank 2, row-pointer array of length
`rows + 1` starting at 0, ending at `nnz`, monotone; column indices in range
and strictly increasing within each row. -/
structure CsrWf (t : Tensor) : Prop where
  rank2 : t.sizes.length = 2
  crow_len : t.crow.length = t.size0 + 1
  crow_first : t.crow.getD 0 0 = 0
  crow_last : t.crow.getD t.size0 0 = t.nnz
  crow_step : ∀ i < t.size0, t.crow.getD i 0 ≤ t.crow.getD (i+1) 0
  col_len : t.col.length = t.nnz
  col_lt : ∀ k < t.nnz, t.col.getD k 0 < t.size1
  col_sorted : ∀ i < t.size0, ∀ k < t.nnz,
    t.crow.getD i 0 ≤ k → k + 1 < t.crow.getD (i+1) 0 → t.col.getD k 0 < t.col.getD (k+1) 0

/-- Concrete 3×3 CSR matrix with zero stored entries. -/
def mat33empty : Tensor := ⟨Layout.sparseCsr, ScalarType.float32, [3, 3], [], [0, 0, 0, 0], [], []⟩

/-- Concrete dense 3-vector [1, 2, 3]. -/
def self123 : Tensor := ⟨Layout.strided, ScalarType.float32, [3], [1, 2, 3], [], [], []⟩

/-- Concrete dense zero 3-vector. -/
def vec3zero : Tensor := ⟨Layout.strided, ScalarType.float32, [3], [0, 0, 0], [], [], []⟩

/-- Concrete distinct output buffer with stale prior contents. -/
def result3stale : Tensor := ⟨Layout.strided, ScalarType.float32, [3], [7, 7, 7], [], [], []⟩

/-- Concrete rank-1 tensor carrying a CSR layout tag (for the `addmv` dim test). -/
def mat3csr1d : Tensor := ⟨Layout.sparseCsr, ScalarType.float32, [3], [], [0, 0, 0, 0], [], []⟩

/-- Concrete 2×2 CSR identity-pattern matrix with stored values 1, 1. -/
def selfId2 : Tensor := ⟨Layout.sparseCsr, ScalarType.float32, [2, 2], [], [0, 1, 2], [0, 1], [1, 1]⟩

/-- Concrete dense 2×3 all-ones matrix. -/
def mat1ones : Tensor := ⟨Layout.strided, ScalarType.float32, [2, 3], [1, 1, 1, 1, 1, 1], [], [], []⟩

/-- Concrete dense 3×2 all-ones matrix. -/
def mat2ones : Tensor := ⟨Layout.strided, ScalarType.float32, [3, 2], [1, 1, 1, 1, 1, 1], [], [], []⟩

/-- Concrete distinct CSR output buffer with an empty pattern. -/
def resCsr22 : Tensor := ⟨Layout.sparseCsr, ScalarType.float32, [2, 2], [], [0, 0, 0], [], []⟩

/-- Concrete rank-1 CSR-tagged tensor of size [2] (for the missing self-rank check). -/
def selfRank1 : Tensor := ⟨Layout.sparseCsr, ScalarType.float32, [2], [], [0, 1, 2], [0, 1], [1, 1]⟩

/-- Concrete dense 3×0 matrix. -/
def mat2empty30 : Tensor := ⟨Layout.strided, ScalarType.float32, [3, 0], [], [], [], []⟩

/-- Concrete CSR output buffer of shape 2×0. -/
def resCsr20 : Tensor := ⟨Layout.sparseCsr, ScalarType.float32, [2, 0], [], [0, 0, 0], [], []⟩

/-- Concrete strided (non-CSR) 2×2 tensor standing in the `self` slot. -/
def selfStrided22 : Tensor := ⟨Layout.strided, ScalarType.float32, [2, 2], [1, 0, 0, 1], [], [], []⟩

/-- Concrete 3×3 CSR identity matrix (3 stored entries). -/
def mat33diag : Tensor := ⟨Layout.sparseCsr, ScalarType.float32, [3, 3], [], [0, 1, 2, 3], [0, 1, 2], [1, 1, 1]⟩

/-- Concrete dense 3-vector [4, 5, 6]. -/
def vec456 : Tensor := ⟨Layout.strided, ScalarType.float32, [3], [4, 5, 6], [], [], []⟩

/-- Concrete rank-2 CSR tensor of shape 2×0 standing in the `self` slot. -/
def selfCsr20 : Tensor := ⟨Layout.sparseCsr, ScalarType.float32, [2, 0], [], [0, 1, 2], [0, 1], [1, 1]⟩

/-- Reading a position below `n` in `(List.range n).map g` yields `g` there. -/
theorem getD_map_range {g : Nat → ℤ} {n k : Nat} (hk : k < n) (d : ℤ) :
    ((List.range n).map g).getD k d = g k := by
  simp [List.getD_eq_getElem?_getD, List.getElem?_map, List.getElem?_range, hk]

/-- Reading position `(i, j)` of a row-major flattening recovers the entry
function. -/
theorem denseOfFn_getD {m n i j : Nat} (f : Nat → Nat → ℤ) (hi : i < m) (hj : j < n) :
    (denseOfFn m n f).getD (i * n + j) 0 = f i j := by
  have hn : 0 < n := Nat.lt_of_le_of_lt (Nat.zero_le j) hj
  have hlt : i * n + j < m * n := by
    have h1 : i * n + j < (i + 1) * n := by
      have : (i + 1) * n = i * n + n := by ring
      omega
    have h2 : (i + 1) * n ≤ m * n := Nat.mul_le_mul_right n hi
    omega
  have h1 : (i * n + j) / n = i := by
    rw [Nat.mul_comm i n, Nat.mul_add_div hn, Nat.div_eq_of_lt hj, Nat.add_zero]
  have h2 : (i * n + j) % n = j := by
    rw [Nat.mul_comm i n, Nat.mul_add_mod, Nat.mod_eq_of_lt hj]
  rw [denseOfFn, getD_map_range hlt, h1, h2]

/-- Row pointers of a well-formed CSR tensor are monotone. -/
theorem crow_mono {t : Tensor} (hwf : CsrWf t) :
    ∀ i j, i ≤ j → j ≤ t.size0 → t.crow.getD i 0 ≤ t.crow.getD j 0 := by
  intro i j hij hj
  induction j with
  | zero =>
    have : i = 0 := Nat.le_zero.mp hij
    subst this
    exact le_refl _
  | succ j ih =>
    rcases Nat.lt_or_ge i (j + 1) with h | h
    · have hle : i ≤ j := Nat.lt_succ_iff.mp h
      exact le_trans (ih hle (le_trans (Nat.le_succ j) hj))
        (hwf.crow_step j (by omega))
    · have : i = j + 1 := Nat.le_antisymm hij h
      subst this
      exact le_refl _

/-- Every stored entry of a well-formed CSR tensor lies in some row. -/
theorem csrRow_exists {t : Tensor} (hwf : CsrWf t) {k : Nat} (hk : k < t.nnz) :
    ∃ i, i < t.size0 ∧ t.crow.getD i 0 ≤ k ∧ k < t.crow.getD (i + 1) 0 := by
  classical
  let p : Nat → Prop := fun i => t.crow.getD i 0 ≤ k
  have hp0 : p 0 := by
    show t.crow.getD 0 0 ≤ k
    rw [hwf.crow_first]
    exact Nat.zero_le k
  have hspec : p (Nat.findGreatest p t.size0) :=
    Nat.findGreatest_spec (Nat.zero_le t.size0) hp0
  have hle : Nat.findGreatest p t.size0 ≤ t.size0 := Nat.findGreatest_le t.size0
  have hspec' : t.crow.getD (Nat.findGreatest p t.size0) 0 ≤ k := hspec
  have hne : Nat.findGreatest p t.size0 ≠ t.size0 := by
    intro h
    have h2 := hspec'
    rw [h, hwf.crow_last] at h2
    omega
  have hlt : Nat.findGreatest p t.size0 < t.size0 := Nat.lt_of_le_of_ne hle hne
  have hng : ¬ p (Nat.findGreatest p t.size0 + 1) :=
    Nat.findGreatest_is_greatest (Nat.lt_succ_self _) (by omega)
  refine ⟨Nat.findGreatest p t.size0, hlt, hspec', ?_⟩
  by_contra hcon
  apply hng
  show t.crow.getD (Nat.findGreatest p t.size0 + 1) 0 ≤ k
  omega

/-- The row containing a stored entry of a well-formed CSR tensor is unique. -/
theorem csrRow_unique {t : Tensor} (hwf : CsrWf t) {i1 i2 k : Nat}
    (h1 : i1 < t.size0) (h2 : i2 < t.size0)
    (ha : t.crow.getD i1 0 ≤ k) (hb : k < t.crow.getD (i1 + 1) 0)
    (hc : t.crow.getD i2 0 ≤ k) (hd : k < t.crow.getD (i2 + 1) 0) : i1 = i2 := by
  by_contra hne
  rcases Nat.lt_or_ge i1 i2 with h | h
  · have := crow_mono hwf (i1 + 1) i2 h (le_of_lt h2)
    omega
  · have hlt : i2 < i1 := by omega
    have := crow_mono hwf (i2 + 1) i1 hlt (le_of_lt h1)
    omega

/-- `csrRowOf` returns the row whose pointer range contains `k`. -/
theorem csrRowOf_eq {t : Tensor} (hwf : CsrWf t) {k i : Nat}
    (hi : i < t.size0) (ha : t.crow.getD i 0 ≤ k) (hb : k < t.crow.getD (i + 1) 0) :
    csrRowOf t k = i := by
  unfold csrRowOf
  set p := fun i' => decide (t.crow.getD i' 0 ≤ k ∧ k < t.crow.getD (i' + 1) 0) with hp
  have hmem : i ∈ (List.range t.size0).filter p := by
    refine List.mem_filter.mpr ⟨List.mem_range.mpr hi, ?_⟩
    rw [hp]
    exact decide_eq_true ⟨ha, hb⟩
  have hall : ∀ x ∈ (List.range t.size0).filter p, x = i := by
    intro x hx
    obtain ⟨hxr, hpx⟩ := List.mem_filter.mp hx
    have hx0 := List.mem_range.mp hxr
    have hand := of_decide_eq_true hpx
    exact csrRow_unique hwf hx0 hi hand.1 hand.2 ha hb
  cases hf : (List.range t.size0).filter p with
  | nil => rw [hf] at hmem; cases hmem
  | cons a l =>
    have : a = i := hall a (by rw [hf]; exact List.mem_cons_self a l)
    simp [this]

/-- Characterisation of `csrRowOf` for a well-formed CSR tensor. -/
theorem csrRowOf_spec {t : Tensor} (hwf : CsrWf t) {k : Nat} (hk : k < t.nnz) :
    csrRowOf t k < t.size0 ∧ t.crow.getD (csrRowOf t k) 0 ≤ k ∧
      k < t.crow.getD (csrRowOf t k + 1) 0 := by
  obtain ⟨i, hi, ha, hb⟩ := csrRow_exists hwf hk
  rw [csrRowOf_eq hwf hi ha hb]
  exact ⟨hi, ha, hb⟩

/-- Column indices are strictly increasing within a row of a well-formed CSR
tensor. -/
theorem col_strict {t : Tensor} (hwf : CsrWf t) {i a b : Nat} (hi : i < t.size0)
    (hcra : t.crow.getD i 0 ≤ a) (hab : a < b) (hb : b < t.crow.getD (i + 1) 0) :
    t.col.getD a 0 < t.col.getD b 0 := by
  have hrow : t.crow.getD (i + 1) 0 ≤ t.nnz := by
    have := crow_mono hwf (i + 1) t.size0 (by omega) (le_refl _)
    rw [hwf.crow_last] at this
    exact this
  induction b with
  | zero => omega
  | succ c ih =>
    have hcnnz : c < t.nnz := by omega
    rcases Nat.lt_or_ge a c with h | h
    · have hstep : t.col.getD c 0 < t.col.getD (c + 1) 0 :=
        hwf.col_sorted i hi c hcnnz (by omega) hb
      exact lt_trans (ih h (by omega)) hstep
    · have : a = c := by omega
      subst this
      exact hwf.col_sorted i hi a (by omega) hcra hb

/-- The dense entry at the coordinate of stored entry `k` is exactly the
stored value, in a well-formed CSR tensor. -/
theorem csrDenseEntry_stored {t : Tensor} (hwf : CsrWf t) {k : Nat} (hk : k < t.nnz) :
    csrDenseEntry t (csrRowOf t k) (t.col.getD k 0) = t.vals.getD k 0 := by
  obtain ⟨hi, ha, hb⟩ := csrRowOf_spec hwf hk
  unfold csrDenseEntry
  rw [Finset.sum_eq_single k]
  · rw [if_pos rfl]
  · intro b hbmem hbne
    have hbIco := Finset.mem_Ico.mp hbmem
    have hne : ¬ t.col.getD b 0 = t.col.getD k 0 := by
      rcases Nat.lt_or_ge b k with h | h
      · exact ne_of_lt (col_strict hwf hi hbIco.1 h hb)
      · have hkb : k < b := by omega
        exact ne_of_gt (col_strict hwf hi ha hkb hbIco.2)
    rw [if_neg hne]
  · intro hknot
    exact absurd (Finset.mem_Ico.mpr ⟨ha, hb⟩) hknot

/-- A CSR matrix with no stored values has zero row dots. -/
theorem csrRowDot_of_vals_nil {mat vec : Tensor} (h : mat.vals = []) (i : Nat) :
    csrRowDot mat vec i = 0 := by
  unfold csrRowDot
  apply Finset.sum_eq_zero
  intro k _
  rw [h]
  simp

/-- A successful `expand_size` to `{m}` produces shape `[m]`. -/
theorem expand_size_sizes {t u : Tensor} {m : Nat} (h : expand_size t m = some u) :
    u.sizes = [m] := by
  rcases hs : t.sizes with _ | ⟨l, _ | ⟨l2, rest2⟩⟩
  · simp only [expand_size, hs, Option.some.injEq] at h
    rw [← h]
  · simp only [expand_size, hs] at h
    split_ifs at h with h1 h2
    · simp only [Option.some.injEq] at h
      rw [← h, hs, h1]
    · simp only [Option.some.injEq] at h
      rw [← h]
  · simp only [expand_size, hs] at h
    exact Option.noConfusion h

/-- `expand_size` is the identity on a tensor already of shape `[m]`. -/
theorem expand_size_refl {t : Tensor} {m : Nat} (h : t.sizes = [m]) :
    expand_size t m = some t := by
  unfold expand_size
  rw [h]
  simp

/-- Claim C1: for every call to `addmv` whose `mat` has zero stored entries,
the backend kernel is not invoked; if β = 0 the result is the all-zero vector
regardless of `self`'s contents, and if β ≠ 0 the result equals `self`
multiplied by β elementwise. -/
theorem addmv_empty_mat_shortcut (debug : Bool) (kernel : KernelFn)
    (self mat vec result : Tensor) (beta alpha uninit : ℤ) (aliased : Bool)
    (hcsr : mat.layout = Layout.sparseCsr) (hm : mat.dim = 2) (hv : vec.dim = 1)
    (hexp : (expand_size self mat.size0).isSome) (hnnz : mat.nnz = 0) :
    (addmv_out_sparse_csr debug kernel self mat vec beta alpha result aliased uninit).kernelInvoked
        = false ∧
    (addmv_out_sparse_csr debug kernel self mat vec beta alpha result aliased uninit).err = none ∧
    (beta = 0 →
      ∀ q ∈ (addmv_out_sparse_csr debug kernel self mat vec beta alpha result
          aliased uninit).out.data, q = 0) ∧
    (beta ≠ 0 →
      (addmv_out_sparse_csr debug kernel self mat vec beta alpha result aliased uninit).out.data
        = self.data.map (fun x => x * beta)) := by
  obtain ⟨s, hexp'⟩ := Option.isSome_iff_exists.mp hexp
  unfold addmv_out_sparse_csr
  rw [if_neg (by simp [hcsr]), if_neg (by simp [hm]), if_neg (by simp [hv]), hexp']
  dsimp only
  rw [if_pos hnnz]
  by_cases hb : beta = 0
  · rw [if_pos hb]
    refine ⟨rfl, rfl, ?_, fun hbne => absurd hb hbne⟩
    intro _ q hq
    exact List.eq_of_mem_replicate hq
  · rw [if_neg hb]
    exact ⟨rfl, rfl, fun h => absurd h hb, fun _ => rfl⟩

/-- Witness for C1, at the spec's end-to-end example: `mat` a 0-nnz 3×3 CSR
matrix, `self` = [1,2,3], β = 2, α = 5 gives [2,4,6]. -/
theorem addmv_empty_mat_shortcut_witness :
    mat33empty.layout = Layout.sparseCsr ∧ mat33empty.dim = 2 ∧ vec3zero.dim = 1 ∧
    (expand_size self123 mat33empty.size0).isSome ∧ mat33empty.nnz = 0 ∧
    (addmv_out_sparse_csr false cpuAddmvKernel self123 mat33empty vec3zero 2 5
        result3stale false 0).out.data = [2, 4, 6] := by
  refine ⟨rfl, rfl, rfl, by decide, rfl, ?_⟩
  have h := addmv_empty_mat_shortcut false cpuAddmvKernel self123 mat33empty vec3zero
    result3stale 2 5 0 false rfl rfl rfl (by decide) rfl
  rw [h.2.2.2 (by decide)]
  decide

/-- Claim C5: `addmv` is alias-safe: with the output buffer being the very
`self` object, the call produces the same outcome as with a distinct output
buffer holding the same initial contents (the same tensor value, `aliased`
false), for every backend kernel, `mat`, `vec`, β and α. -/
theorem addmv_alias_safe (debug : Bool) (kernel : KernelFn) (self mat vec : Tensor)
    (beta alpha uninit : ℤ) (hsz : self.sizes = [mat.size0]) :
    addmv_out_sparse_csr debug kernel self mat vec beta alpha self true uninit =
    addmv_out_sparse_csr debug kernel self mat vec beta alpha self false uninit := by
  unfold addmv_out_sparse_csr
  rw [expand_size_refl hsz]
  have hprep : addmvPrepareOut self self beta false uninit = self := by
    unfold addmvPrepareOut
    rw [if_neg (by simp)]
    show (if beta ≠ 0 then copy_dense (resize_output self self.sizes uninit) self
        else resize_output self self.sizes uninit) = self
    have hr : resize_output self self.sizes uninit = self := by
      unfold resize_output
      rw [if_pos rfl]
    rw [hr]
    split_ifs
    · rfl
    · rfl
  have hprep2 : addmvPrepareOut self self beta true uninit = self := rfl
  dsimp only
  rw [hprep, hprep2]

/-- Witness for C5 at a concrete call with a 3×3 CSR identity `mat` (nonzero
nnz, so the kernel path is exercised). -/
theorem addmv_alias_safe_witness :
    self123.sizes = [mat33diag.size0] ∧
    addmv_out_sparse_csr false cpuAddmvKernel self123 mat33diag vec456 2 3 self123 true 0 =
    addmv_out_sparse_csr false cpuAddmvKernel self123 mat33diag vec456 2 3 self123 false 0 :=
  ⟨rfl, addmv_alias_safe false cpuAddmvKernel self123 mat33diag vec456 2 3 0 rfl⟩

/-- Counterexample to claim C8 as stated: in a release build (`debug = false`,
internal assertions compiled out), calling `addmv` with a rank-1 `mat` still
produces the always-active user-facing validation error for "mat must be
2-D", so that precondition is not signaled only as a debug-only assertion. -/
theorem addmv_mat_rank_check_active_in_release :
    (addmv_out_sparse_csr false cpuAddmvKernel self123 mat3csr1d vec3zero 1 1
        result3stale false 0).err = some AddmvErr.matNot2D := by
  decide

/-- Claim C8 (amended): for `addmv`, only the CSR-layout precondition on `mat`
is a debug-only internal assertion (never raised in release builds); the
precondition that `mat` is 2-D is an always-active user-facing validation
error, raised in both build modes whenever `mat` passes the layout assertion. -/
theorem addmv_mat_checks_classification (debug : Bool) (kernel : KernelFn)
    (self mat vec result : Tensor) (beta alpha uninit : ℤ) (aliased : Bool) :
    (addmv_out_sparse_csr false kernel self mat vec beta alpha result aliased uninit).err ≠
        some AddmvErr.debugAssertMatCsr ∧
    (mat.layout = Layout.sparseCsr → mat.dim ≠ 2 →
      (addmv_out_sparse_csr debug kernel self mat vec beta alpha result aliased uninit).err =
        some AddmvErr.matNot2D) := by
  constructor
  · unfold addmv_out_sparse_csr
    rw [if_neg (by simp)]
    split_ifs
    all_goals try (rcases expand_size self mat.size0 with _ | s)
    all_goals simp
  · intro hcsr hdim
    unfold addmv_out_sparse_csr
    rw [if_neg (by simp [hcsr]), if_pos hdim]

/-- Witness for the amended C8: with `debug = true` and a CSR rank-1 `mat`,
the rank check raises the user-facing error. -/
theorem addmv_mat_checks_classification_witness :
    mat3csr1d.layout = Layout.sparseCsr ∧ mat3csr1d.dim ≠ 2 ∧
    (addmv_out_sparse_csr true cpuAddmvKernel self123 mat3csr1d vec3zero 1 1
        result3stale false 0).err = some AddmvErr.matNot2D :=
  ⟨rfl, by decide,
    (addmv_mat_checks_classification true cpuAddmvKernel self123 mat3csr1d vec3zero
      result3stale 1 1 0 false).2 rfl (by decide)⟩

/-- Claim C9: `triangular_solve` returns exactly the pair `(X', clone_A)`
where `X'` is produced by the delegated backend kernel alone and `clone_A` is
passed through unmodified; this layer neither reads nor writes `clone_A`
(the first component does not depend on it). -/
theorem triangular_solve_pass_through (kernel : TriKernelFn) (B A : Tensor)
    (upper transpose unitriangular : Bool) (X clone_A : Tensor) :
    triangular_solve_out_sparse_csr_cpu kernel B A upper transpose unitriangular X clone_A =
      (kernel A B X upper transpose unitriangular, clone_A) ∧
    ∀ other : Tensor,
      (triangular_solve_out_sparse_csr_cpu kernel B A upper transpose unitriangular X other).1 =
      (triangular_solve_out_sparse_csr_cpu kernel B A upper transpose unitriangular X clone_A).1 :=
  ⟨rfl, fun _ => rfl⟩

/-- The validation sequence of `sampled_addmm` passes exactly when all twelve
checked conditions hold. -/
theorem sampledAddmmChecks_eq_none_iff (self mat1 mat2 result : Tensor) :
    sampledAddmmChecks self mat1 mat2 result = none ↔
      (mat1.layout = Layout.strided ∧ mat2.layout = Layout.strided ∧
       result.layout = Layout.sparseCsr ∧ mat1.dtype = mat2.dtype ∧
       mat1.dtype = self.dtype ∧ result.dtype = self.dtype ∧
       mat1.dim = 2 ∧ mat2.dim = 2 ∧ result.dim = 2 ∧
       mat1.size1 = mat2.size0 ∧ self.size0 = mat1.size0 ∧ self.size1 = mat2.size1) := by
  constructor
  · intro h
    have c1 : mat1.layout = Layout.strided := by
      by_contra hno
      unfold sampledAddmmChecks at h
      rw [if_pos hno] at h
      exact Option.noConfusion h
    have c2 : mat2.layout = Layout.strided := by
      by_contra hno
      unfold sampledAddmmChecks at h
      rw [if_neg (not_not_intro c1), if_pos hno] at h
      exact Option.noConfusion h
    have c3 : result.layout = Layout.sparseCsr := by
      by_contra hno
      unfold sampledAddmmChecks at h
      rw [if_neg (not_not_intro c1), if_neg (not_not_intro c2), if_pos hno] at h
      exact Option.noConfusion h
    have c4 : mat1.dtype = mat2.dtype := by
      by_contra hno
      unfold sampledAddmmChecks at h
      rw [if_neg (not_not_intro c1), if_neg (not_not_intro c2), if_neg (not_not_intro c3),
        if_pos hno] at h
      exact Option.noConfusion h
    have c5 : mat1.dtype = self.dtype := by
      by_contra hno
      unfold sampledAddmmChecks at h
      rw [if_neg (not_not_intro c1), if_neg (not_not_intro c2), if_neg (not_not_intro c3),
        if_neg (not_not_intro c4), if_pos hno] at h
      exact Option.noConfusion h
    have c6 : result.dtype = self.dtype := by
      by_contra hno
      unfold sampledAddmmChecks at h
      rw [if_neg (not_not_intro c1), if_neg (not_not_intro c2), if_neg (not_not_intro c3),
        if_neg (not_not_intro c4), if_neg (not_not_intro c5), if_pos hno] at h
      exact Option.noConfusion h
    have c7 : mat1.dim = 2 := by
      by_contra hno
      unfold sampledAddmmChecks at h
      rw [if_neg (not_not_intro c1), if_neg (not_not_intro c2), if_neg (not_not_intro c3),
        if_neg (not_not_intro c4), if_neg (not_not_intro c5), if_neg (not_not_intro c6),
        if_pos hno] at h
      exact Option.noConfusion h
    have c8 : mat2.dim = 2 := by
      by_contra hno
      unfold sampledAddmmChecks at h
      rw [if_neg (not_not_intro c1), if_neg (not_not_intro c2), if_neg (not_not_intro c3),
        if_neg (not_not_intro c4), if_neg (not_not_intro c5), if_neg (not_not_intro c6),
        if_neg (not_not_intro c7), if_pos hno] at h
      exact Option.noConfusion h
    have c9 : result.dim = 2 := by
      by_contra hno
      unfold sampledAddmmChecks at h
      rw [if_neg (not_not_intro c1), if_neg (not_not_intro c2), if_neg (not_not_intro c3),
        if_neg (not_not_intro c4), if_neg (not_not_intro c5), if_neg (not_not_intro c6),
        if_neg (not_not_intro c7), if_neg (not_not_intro c8), if_pos hno] at h
      exact Option.noConfusion h
    have c10 : mat1.size1 = mat2.size0 := by
      by_contra hno
      unfold sampledAddmmChecks at h
      rw [if_neg (not_not_intro c1), if_neg (not_not_intro c2), if_neg (not_not_intro c3),
        if_neg (not_not_intro c4), if_neg (not_not_intro c5), if_neg (not_not_intro c6),
        if_neg (not_not_intro c7), if_neg (not_not_intro c8), if_neg (not_not_intro c9),
        if_pos hno] at h
      exact Option.noConfusion h
    have c11 : self.size0 = mat1.size0 := by
      by_contra hno
      unfold sampledAddmmChecks at h
      rw [if_neg (not_not_intro c1), if_neg (not_not_intro c2), if_neg (not_not_intro c3),
        if_neg (not_not_intro c4), if_neg (not_not_intro c5), if_neg (not_not_intro c6),
        if_neg (not_not_intro c7), if_neg (not_not_intro c8), if_neg (not_not_intro c9),
        if_neg (not_not_intro c10), if_pos hno] at h
      exact Option.noConfusion h
    have c12 : self.size1 = mat2.size1 := by
      by_contra hno
      unfold sampledAddmmChecks at h
      rw [if_neg (not_not_intro c1), if_neg (not_not_intro c2), if_neg (not_not_intro c3),
        if_neg (not_not_intro c4), if_neg (not_not_intro c5), if_neg (not_not_intro c6),
        if_neg (not_not_intro c7), if_neg (not_not_intro c8), if_neg (not_not_intro c9),
        if_neg (not_not_intro c10), if_neg (not_not_intro c11), if_pos hno] at h
      exact Option.noConfusion h
    exact ⟨c1, c2, c3, c4, c5, c6, c7, c8, c9, c10, c11, c12⟩
  · rintro ⟨c1, c2, c3, c4, c5, c6, c7, c8, c9, c10, c11, c12⟩
    unfold sampledAddmmChecks
    rw [if_neg (not_not_intro c1), if_neg (not_not_intro c2), if_neg (not_not_intro c3),
      if_neg (not_not_intro c4), if_neg (not_not_intro c5), if_neg (not_not_intro c6),
      if_neg (not_not_intro c7), if_neg (not_not_intro c8), if_neg (not_not_intro c9),
      if_neg (not_not_intro c10), if_neg (not_not_intro c11), if_neg (not_not_intro c12)]

/-- Claim C6: `sampled_addmm` rejects, with an always-active validation
failure, exactly the inputs with a dtype mismatch among `mat1`/`mat2`/`self`/
`result`, a non-strided `mat1` or `mat2`, a non-CSR `result`, a non-rank-2
`mat1`/`mat2`/`result`, incompatible `mat1`/`mat2` shapes, or a `self` shape
differing from the product shape — in both build modes (`debug` arbitrary). -/
theorem sampled_addmm_rejects_invalid (debug : Bool) (self mat1 mat2 result : Tensor)
    (beta alpha uninit : ℤ) (aliased : Bool) (hself : self.layout = Layout.sparseCsr) :
    (sparse_sampled_addmm_out_sparse_csr_cpu debug self mat1 mat2 beta alpha result
        aliased uninit).err ≠ none ↔
      (mat1.dtype ≠ mat2.dtype ∨ mat1.dtype ≠ self.dtype ∨ result.dtype ≠ self.dtype ∨
       mat1.layout ≠ Layout.strided ∨ mat2.layout ≠ Layout.strided ∨
       result.layout ≠ Layout.sparseCsr ∨
       mat1.dim ≠ 2 ∨ mat2.dim ≠ 2 ∨ result.dim ≠ 2 ∨
       mat1.size1 ≠ mat2.size0 ∨ self.size0 ≠ mat1.size0 ∨ self.size1 ≠ mat2.size1) := by
  have hiff := sampledAddmmChecks_eq_none_iff self mat1 mat2 result
  have herr : (sparse_sampled_addmm_out_sparse_csr_cpu debug self mat1 mat2 beta alpha result
      aliased uninit).err = sampledAddmmChecks self mat1 mat2 result := by
    unfold sparse_sampled_addmm_out_sparse_csr_cpu
    rw [if_neg (by simp [hself])]
    rcases sampledAddmmChecks self mat1 mat2 result with _ | e <;> rfl
  rw [herr]
  constructor
  · intro hne
    by_contra hnd
    push_neg at hnd
    obtain ⟨e1, e2, e3, e4, e5, e6, e7, e8, e9, e10, e11, e12⟩ := hnd
    exact hne (hiff.mpr ⟨e4, e5, e6, e1, e2, e3, e7, e8, e9, e10, e11, e12⟩)
  · intro hd hnone
    have hc := hiff.mp hnone
    tauto

/-- Witness for C6: a shape-incompatible pair (`mat1` as both factors:
3 columns against 2 rows) is rejected. -/
theorem sampled_addmm_rejects_invalid_witness :
    selfId2.layout = Layout.sparseCsr ∧
    (sparse_sampled_addmm_out_sparse_csr_cpu false selfId2 mat1ones mat1ones 1 1 resCsr22
        false 0).err ≠ none :=
  ⟨rfl,
    (sampled_addmm_rejects_invalid false selfId2 mat1ones mat1ones resCsr22 1 1 0 false
        rfl).mpr
      (Or.inr (Or.inr (Or.inr (Or.inr (Or.inr (Or.inr (Or.inr (Or.inr (Or.inr
        (Or.inl (by decide)))))))))))⟩

/-- Claim C7: for every call to `addmv` or `sampled_addmm` that fails a
validation check, the output buffer is returned completely unmutated (no
resize, no copy, no value write): all validation precedes any output
mutation. -/
theorem validation_before_mutation :
    (∀ (debug : Bool) (kernel : KernelFn) (self mat vec result : Tensor)
        (beta alpha uninit : ℤ) (aliased : Bool),
      (addmv_out_sparse_csr debug kernel self mat vec beta alpha result aliased uninit).err
          ≠ none →
      (addmv_out_sparse_csr debug kernel self mat vec beta alpha result aliased uninit).out
          = result) ∧
    (∀ (debug : Bool) (self mat1 mat2 result : Tensor) (beta alpha uninit : ℤ)
        (aliased : Bool),
      (sparse_sampled_addmm_out_sparse_csr_cpu debug self mat1 mat2 beta alpha result
          aliased uninit).err ≠ none →
      (sparse_sampled_addmm_out_sparse_csr_cpu debug self mat1 mat2 beta alpha result
          aliased uninit).out = result) := by
  constructor
  · intro debug kernel self mat vec result beta alpha uninit aliased h
    revert h
    unfold addmv_out_sparse_csr
    split_ifs
    all_goals try (intro h; rfl)
    all_goals rcases expand_size self mat.size0 with _ | s
    all_goals intro h
    all_goals first | rfl | (exact absurd rfl h)
  · intro debug self mat1 mat2 result beta alpha uninit aliased h
    revert h
    unfold sparse_sampled_addmm_out_sparse_csr_cpu
    split_ifs
    all_goals try (intro h; rfl)
    all_goals rcases sampledAddmmChecks self mat1 mat2 result with _ | e
    all_goals intro h
    all_goals first | rfl | (exact absurd rfl h)

/-- Witness for C7: a failed `addmv` rank check and a failed `sampled_addmm`
shape check both leave their (stale-content) output buffers untouched. -/
theorem validation_before_mutation_witness :
    ((addmv_out_sparse_csr false cpuAddmvKernel self123 mat3csr1d vec3zero 1 1
        result3stale false 0).err ≠ none ∧
      (addmv_out_sparse_csr false cpuAddmvKernel self123 mat3csr1d vec3zero 1 1
        result3stale false 0).out = result3stale) ∧
    ((sparse_sampled_addmm_out_sparse_csr_cpu false selfId2 mat1ones mat1ones 1 1 resCsr22
        false 0).err ≠ none ∧
      (sparse_sampled_addmm_out_sparse_csr_cpu false selfId2 mat1ones mat1ones 1 1 resCsr22
        false 0).out = resCsr22) :=
  ⟨⟨by decide,
      validation_before_mutation.1 false cpuAddmvKernel self123 mat3csr1d vec3zero
        result3stale 1 1 0 false (by decide)⟩,
    ⟨by decide,
      validation_before_mutation.2 false selfId2 mat1ones mat1ones resCsr22 1 1 0 false
        (by decide)⟩⟩

/-- Claim C10: `sampled_addmm` performs no user-facing validation of `self`'s
rank or layout: the validation outcome depends on `self` only through its
dtype and its two unchecked size reads (so a rank-1 `self` is treated exactly
like a rank-2 one with the same reads); a concrete rank-1 `self` draws only
the generic dim-1 shape-mismatch failure, and even passes validation entirely
when the read sizes happen to match; `self`'s CSR layout is checked only by
the debug-only assertion, absent in release mode. -/
theorem sampled_addmm_no_self_rank_or_layout_check :
    (∀ s s' m1 m2 r : Tensor, s.dtype = s'.dtype → s.size0 = s'.size0 →
        s.size1 = s'.size1 →
        sampledAddmmChecks s m1 m2 r = sampledAddmmChecks s' m1 m2 r) ∧
    sampledAddmmChecks selfRank1 mat1ones mat2ones resCsr22 = some SamErr.selfDim1Mismatch ∧
    sampledAddmmChecks selfRank1 mat1ones mat2empty30 resCsr20 = none ∧
    (sparse_sampled_addmm_out_sparse_csr_cpu true selfStrided22 mat1ones mat2ones 1 1
        resCsr22 false 0).err = some SamErr.debugAssertSelfCsr ∧
    (sparse_sampled_addmm_out_sparse_csr_cpu false selfStrided22 mat1ones mat2ones 1 1
        resCsr22 false 0).err ≠ some SamErr.debugAssertSelfCsr := by
  refine ⟨?_, by decide, by decide, by decide, by decide⟩
  intro s s' m1 m2 r h1 h2 h3
  unfold sampledAddmmChecks
  rw [h1, h2, h3]

/-- Witness for C10: a rank-1 `self` and a rank-2 `self` with the same dtype
and size reads receive the identical validation outcome. -/
theorem sampled_addmm_no_self_rank_check_witness :
    selfRank1.dtype = selfCsr20.dtype ∧ selfRank1.size0 = selfCsr20.size0 ∧
    selfRank1.size1 = selfCsr20.size1 ∧
    sampledAddmmChecks selfRank1 mat1ones mat2ones resCsr22 =
      sampledAddmmChecks selfCsr20 mat1ones mat2ones resCsr22 :=
  ⟨rfl, rfl, rfl,
    sampled_addmm_no_self_rank_or_layout_check.1 selfRank1 selfCsr20 mat1ones mat2ones
      resCsr22 rfl rfl rfl⟩

/-- Claim C2: in `addmv`, a distinct output buffer is resized to the
broadcast shape of `self` and receives `self`'s values exactly when β ≠ 0
(for β = 0 the prepared output does not depend on the bias values at all);
consequently every call with β = 0 returns exactly α·(mat@vec), with no
contribution from `self`'s prior values or from the stale output contents. -/
theorem addmv_output_preparation_beta_zero (debug : Bool) (self mat vec result : Tensor)
    (beta alpha uninit : ℤ) (aliased : Bool) (self_ : Tensor)
    (hcsr : mat.layout = Layout.sparseCsr) (hm : mat.dim = 2) (hv : vec.dim = 1)
    (hexp : expand_size self mat.size0 = some self_)
    (halias : aliased = true → result = self ∧ self.sizes = [mat.size0]) :
    ((addmvPrepareOut self_ result beta false uninit).sizes = self_.sizes ∧
      (beta ≠ 0 → (addmvPrepareOut self_ result beta false uninit).data = self_.data) ∧
      (beta = 0 → ∀ sA sB : Tensor, sA.sizes = sB.sizes →
        addmvPrepareOut sA result beta false uninit =
        addmvPrepareOut sB result beta false uninit)) ∧
    (beta = 0 →
      (addmv_out_sparse_csr debug cpuAddmvKernel self mat vec beta alpha result aliased
          uninit).out.data =
        (List.range mat.size0).map (fun i => alpha * csrRowDot mat vec i)) := by
  constructor
  · refine ⟨?_, ?_, ?_⟩
    · unfold addmvPrepareOut resize_output copy_dense
      rw [if_neg (by simp)]
      split_ifs <;> simp_all
    · intro hb
      unfold addmvPrepareOut
      rw [if_neg (by simp), if_pos hb]
      rfl
    · intro hb sA sB hAB
      unfold addmvPrepareOut
      rw [if_neg (by simp), if_neg (by simp [hb]), if_neg (by simp), if_neg (by simp [hb]),
        hAB]
  · intro hb
    subst hb
    unfold addmv_out_sparse_csr
    rw [if_neg (by simp [hcsr]), if_neg (by simp [hm]), if_neg (by simp [hv]), hexp]
    dsimp only
    by_cases hnnz : mat.nnz = 0
    · rw [if_pos hnnz, if_pos rfl]
      have hvals : mat.vals = [] := List.length_eq_zero.mp hnnz
      have hms : (addmvPrepareOut self_ result 0 aliased uninit).sizes = [mat.size0] := by
        cases aliased
        · unfold addmvPrepareOut resize_output copy_dense
          rw [if_neg (by simp)]
          have hss := expand_size_sizes hexp
          split_ifs <;> simp_all
        · obtain ⟨hres, hsz⟩ := halias rfl
          unfold addmvPrepareOut
          rw [if_pos rfl, hres, hsz]
      show (addmvPrepareOut self_ result 0 aliased uninit).zero_.data = _
      unfold Tensor.zero_
      rw [hms]
      have hnum : numel [mat.size0] = mat.size0 := by simp [numel]
      rw [hnum]
      have hzero : ∀ i ∈ List.range mat.size0,
          alpha * csrRowDot mat vec i = (fun _ => (0 : ℤ)) i := by
        intro i _
        rw [csrRowDot_of_vals_nil hvals]
        simp
      rw [List.map_congr_left hzero]
      simp [List.map_const']
    · rw [if_neg hnnz]
      show (cpuAddmvKernel mat vec 0 alpha (addmvPrepareOut self_ result 0 aliased
          uninit)).data = _
      unfold cpuAddmvKernel
      simp

/-- Witness for C2: with β = 0, α = 2, a CSR identity `mat`, stale output
contents 7,7,7 and uninitialized fill 9, the result is exactly 2·(mat@vec) =
[8, 10, 12]. -/
theorem addmv_output_preparation_beta_zero_witness :
    expand_size self123 mat33diag.size0 = some self123 ∧
    (addmv_out_sparse_csr false cpuAddmvKernel self123 mat33diag vec456 0 2 result3stale
        false 9).out.data = [8, 10, 12] := by
  refine ⟨by decide, ?_⟩
  have h := (addmv_output_preparation_beta_zero false self123 mat33diag vec456 result3stale
      0 2 9 false self123 rfl rfl rfl (by decide) (by decide)).2 rfl
  rw [h]
  decide

/-- Reading a valid coordinate of an `addmm` output recovers
`β·d[i,j] + α·(mat1@mat2)[i,j]`. -/
theorem addmm_entry (d mat1 mat2 : Tensor) (beta alpha : ℤ) {i j : Nat}
    (hi : i < d.size0) (hj : j < d.size1) :
    (addmm d mat1 mat2 beta alpha).data.getD (i * d.size1 + j) 0 =
      beta * d.data.getD (i * d.size1 + j) 0 + alpha * mmEntry mat1 mat2 i j := by
  show (denseOfFn d.size0 d.size1
      (fun i j => beta * d.data.getD (i * d.size1 + j) 0 +
        alpha * mmEntry mat1 mat2 i j)).getD (i * d.size1 + j) 0 = _
  rw [denseOfFn_getD _ hi hj]

/-- Claim C4: for every valid call to `sampled_addmm`, the result has exactly
`self`'s stored coordinates (identical row pointers and column indices, and a
values buffer of length nnz), for any `mat1`, `mat2` and any prior state of a
distinct output buffer, which is reshaped to `self`'s pattern before the
values are written. -/
theorem sampled_addmm_pattern_preserved (debug : Bool) (self mat1 mat2 result : Tensor)
    (beta alpha uninit : ℤ) (aliased : Bool)
    (halias : aliased = true → result = self)
    (herr : (sparse_sampled_addmm_out_sparse_csr_cpu debug self mat1 mat2 beta alpha result
        aliased uninit).err = none) :
    (sparse_sampled_addmm_out_sparse_csr_cpu debug self mat1 mat2 beta alpha result
        aliased uninit).out.crow = self.crow ∧
    (sparse_sampled_addmm_out_sparse_csr_cpu debug self mat1 mat2 beta alpha result
        aliased uninit).out.col = self.col ∧
    (sparse_sampled_addmm_out_sparse_csr_cpu debug self mat1 mat2 beta alpha result
        aliased uninit).out.sizes = self.sizes ∧
    (sparse_sampled_addmm_out_sparse_csr_cpu debug self mat1 mat2 beta alpha result
        aliased uninit).out.vals.length = self.nnz := by
  unfold sparse_sampled_addmm_out_sparse_csr_cpu at herr ⊢
  by_cases h1 : debug = true ∧ ¬ self.layout = Layout.sparseCsr
  · rw [if_pos h1] at herr
    exact absurd herr (by simp)
  · rw [if_neg h1] at herr ⊢
    rcases hc : sampledAddmmChecks self mat1 mat2 result with _ | e
    · cases aliased
      · refine ⟨?_, ?_, ?_, ?_⟩ <;>
          simp [copy_csr, sparse_mask, resize_as_sparse_csr_, Tensor.nnz]
      · have hres := halias rfl
        subst hres
        refine ⟨?_, ?_, ?_, ?_⟩ <;>
          simp [copy_csr, sparse_mask, Tensor.nnz]
    · rw [hc] at herr
      exact Option.noConfusion herr

/-- Witness for C4 at the spec's example: the result keeps the identity
pattern of `self` even though the output buffer started with an empty
pattern. -/
theorem sampled_addmm_pattern_preserved_witness :
    (sparse_sampled_addmm_out_sparse_csr_cpu false selfId2 mat1ones mat2ones 1 1 resCsr22
        false 0).err = none ∧
    (sparse_sampled_addmm_out_sparse_csr_cpu false selfId2 mat1ones mat2ones 1 1 resCsr22
        false 0).out.crow = selfId2.crow ∧
    (sparse_sampled_addmm_out_sparse_csr_cpu false selfId2 mat1ones mat2ones 1 1 resCsr22
        false 0).out.col = selfId2.col := by
  have h := sampled_addmm_pattern_preserved false selfId2 mat1ones mat2ones resCsr22 1 1 0
      false (fun hh => Bool.noConfusion hh) (by decide)
  exact ⟨by decide, h.1, h.2.1⟩

/-- Claim C3: for every valid call to `sampled_addmm` on a well-formed `self`,
the result stores exactly `self`'s coordinates, and the stored value at the
`k`-th coordinate `(i, j)` equals `α·(mat1@mat2)[i,j] + β·self[i,j]`; no
values exist at non-stored coordinates. -/
theorem sampled_addmm_values_formula (debug : Bool) (self mat1 mat2 result : Tensor)
    (beta alpha uninit : ℤ) (aliased : Bool) (hwf : CsrWf self)
    (hself : self.layout = Layout.sparseCsr)
    (halias : aliased = true → result = self)
    (hchecks : sampledAddmmChecks self mat1 mat2 result = none) :
    ((sparse_sampled_addmm_out_sparse_csr_cpu debug self mat1 mat2 beta alpha result
        aliased uninit).out.crow = self.crow ∧
     (sparse_sampled_addmm_out_sparse_csr_cpu debug self mat1 mat2 beta alpha result
        aliased uninit).out.col = self.col ∧
     (sparse_sampled_addmm_out_sparse_csr_cpu debug self mat1 mat2 beta alpha result
        aliased uninit).out.vals.length = self.nnz) ∧
    (∀ k, k < self.nnz →
      (sparse_sampled_addmm_out_sparse_csr_cpu debug self mat1 mat2 beta alpha result
          aliased uninit).out.vals.getD k 0 =
        alpha * mmEntry mat1 mat2 (csrRowOf self k) (self.col.getD k 0) +
        beta * self.vals.getD k 0) := by
  have hout : (sparse_sampled_addmm_out_sparse_csr_cpu debug self mat1 mat2 beta alpha
      result aliased uninit).out =
      copy_csr (if aliased then result else resize_as_sparse_csr_ result self uninit)
        (sparse_mask (addmm (to_dense self) mat1 mat2 beta alpha) self) := by
    unfold sparse_sampled_addmm_out_sparse_csr_cpu
    rw [if_neg (by simp [hself]), hchecks]
  rw [hout]
  constructor
  · cases aliased
    · refine ⟨?_, ?_, ?_⟩ <;>
        simp [copy_csr, sparse_mask, resize_as_sparse_csr_, Tensor.nnz]
    · have hres := halias rfl
      subst hres
      refine ⟨?_, ?_, ?_⟩ <;> simp [copy_csr, sparse_mask, Tensor.nnz]
  · intro k hk
    obtain ⟨hi, ha, hb⟩ := csrRowOf_spec hwf hk
    have hj : self.col.getD k 0 < self.size1 := hwf.col_lt k hk
    show (sparse_mask (addmm (to_dense self) mat1 mat2 beta alpha) self).vals.getD k 0 =
      alpha * mmEntry mat1 mat2 (csrRowOf self k) (self.col.getD k 0) +
      beta * self.vals.getD k 0
    have hstep1 : (sparse_mask (addmm (to_dense self) mat1 mat2 beta alpha) self).vals.getD
        k 0 =
        (addmm (to_dense self) mat1 mat2 beta alpha).data.getD
          (csrRowOf self k * self.size1 + self.col.getD k 0) 0 := by
      show ((List.range self.nnz).map _).getD k 0 = _
      exact getD_map_range hk 0
    have hstep2 := addmm_entry (to_dense self) mat1 mat2 beta alpha
      (i := csrRowOf self k) (j := self.col.getD k 0) hi hj
    have hsz1 : (to_dense self).size1 = self.size1 := rfl
    rw [hsz1] at hstep2
    have hstep3 : (to_dense self).data.getD
        (csrRowOf self k * self.size1 + self.col.getD k 0) 0 = self.vals.getD k 0 := by
      show (denseOfFn self.size0 self.size1 (csrDenseEntry self)).getD
          (csrRowOf self k * self.size1 + self.col.getD k 0) 0 = _
      rw [denseOfFn_getD _ hi hj]
      exact csrDenseEntry_stored hwf hk
    rw [hstep1, hstep2, hstep3]
    ring

/-- Witness for C3 at the spec's end-to-end example: all-ones 2×3 and 3×2
factors against the identity pattern with values 1, β = α = 1, store 4 at
both diagonal coordinates. -/
theorem sampled_addmm_values_formula_witness :
    CsrWf selfId2 ∧ selfId2.layout = Layout.sparseCsr ∧
    sampledAddmmChecks selfId2 mat1ones mat2ones resCsr22 = none ∧
    (sparse_sampled_addmm_out_sparse_csr_cpu false selfId2 mat1ones mat2ones 1 1 resCsr22
        false 0).out.vals.getD 0 0 = 4 ∧
    (sparse_sampled_addmm_out_sparse_csr_cpu false selfId2 mat1ones mat2ones 1 1 resCsr22
        false 0).out.vals.getD 1 0 = 4 := by
  have hwf : CsrWf selfId2 :=
    ⟨rfl, rfl, rfl, rfl, by decide, rfl, by decide, by decide⟩
  refine ⟨hwf, rfl, by decide, ?_, ?_⟩
  · have h := (sampled_addmm_values_formula false selfId2 mat1ones mat2ones resCsr22 1 1 0
        false hwf rfl (fun hh => Bool.noConfusion hh) (by decide)).2 0 (by decide)
    rw [h]
    decide
  · have h := (sampled_addmm_values_formula false selfId2 mat1ones mat2ones resCsr22 1 1 0
        false hwf rfl (fun hh => Bool.noConfusion hh) (by decide)).2 1 (by decide)
    rw [h]
    decide

end SparseBlas
